import Mathlib

/-!
Verification of the relationship-resolution caches of the mainflux backend
(`coap/api` mocks package: `thingCacheMock`, `profileCacheMock`,
`groupCacheMock`).  Identifier strings are modelled as `List Char`; the
Go `map[string]string` fields are modelled as association lists whose
iteration order is insertion order, with a no-duplicate-keys invariant
proved for reachable states.
-/

set_option autoImplicit false

namespace MainfluxCache

/-- Identifier strings (opaque identifiers, credential keys, roles). -/
abbrev Str := List Char

/-- Error kinds of the `errors` package that the caches can surface.
Point lookups return `errNotFound`; `errMalformed` stands for the other
error kinds of the package, never produced by the in-memory caches. -/
inductive CacheErr where
  | errNotFound
  | errMalformed
  deriving DecidableEq, Repr

/-- Association-list model of `map[string]string`. -/
abbrev SMap := List (Str × Str)

/-- `m[k] = v` of a Go map: overwrite in place if the key is present,
otherwise append the new binding. -/
def mapInsert (k v : Str) : SMap → SMap
  | [] => [(k, v)]
  | (k', v') :: rest =>
    if k' = k then (k, v) :: rest else (k', v') :: mapInsert k v rest

/-- `m[k]` of a Go map: the value of the first binding of `k`, if any. -/
def mapLookup (k : Str) : SMap → Option Str
  | [] => none
  | (k', v') :: rest => if k' = k then some v' else mapLookup k rest

/-- `delete(m, k)` of a Go map: remove every binding of `k` (at most one
is ever present in a reachable state). -/
def mapDelete (k : Str) : SMap → SMap
  | [] => []
  | (k', v') :: rest =>
    if k' = k then mapDelete k rest else (k', v') :: mapDelete k rest

/-- The `for key, val := range m { if val == id { delete(m, key); return } }`
loop of `thingCacheMock.Remove`: deletes the first binding whose value
equals `v` (in the order of the given list) and stops.  The iteration
order of a Go `range` over a map is unspecified and randomized, so
order-sensitive consequences of the scan are quantified over every
permutation of the stored bindings (see `thingCacheMock.RemoveIter`);
order-insensitive facts (no match ⇒ no change, at most one binding
removed) hold for every order. -/
def removeFirstByValue (v : Str) : SMap → SMap
  | [] => []
  | (k', v') :: rest =>
    if v' = v then rest else (k', v') :: removeFirstByValue v rest

/-- `strings.Split s ":"`: splits on every colon; never empty, and a
string without a colon yields the one-element list `[s]`. -/
def splitOnColon : Str → List Str
  | [] => [[]]
  | c :: rest =>
    if c = ':' then [] :: splitOnColon rest
    else
      match splitOnColon rest with
      | [] => [[c]]
      | p :: ps => (c :: p) :: ps

/-- `rKey`: the composite key of a role assignment,
`fmt.Sprintf("%s:%s", groupID, memberID)`. -/
def rKey (groupID memberID : Str) : Str := groupID ++ ':' :: memberID

/-- State of `thingCacheMock`: credential key → thing id, and
thing id → group id. -/
structure ThingCacheState where
  things : SMap
  groups : SMap
  deriving DecidableEq, Repr

/-- `NewThingCache`. -/
def newThingCache : ThingCacheState := ⟨[], []⟩

namespace thingCacheMock

/-- `thingCacheMock.Save`: store/overwrite `key ↦ id`; always succeeds. -/
def Save (s : ThingCacheState) (key id : Str) : ThingCacheState × Option CacheErr :=
  ({ s with things := mapInsert key id s.things }, none)

/-- `thingCacheMock.ID`: resolve a credential key to the thing id, or
`ErrNotFound`. -/
def ID (s : ThingCacheState) (key : Str) : Except CacheErr Str :=
  match mapLookup key s.things with
  | some id => .ok id
  | none => .error .errNotFound

/-- `thingCacheMock.Remove`: scan for a binding whose value is `id`,
delete the first one found, and return nil either way.  The scan here
runs in insertion order; `RemoveIter` exposes the unspecified Go map
iteration order as an explicit parameter. -/
def Remove (s : ThingCacheState) (id : Str) : ThingCacheState × Option CacheErr :=
  ({ s with things := removeFirstByValue id s.things }, none)

/-- `thingCacheMock.Remove` with the Go `range` loop's unspecified map
iteration order made explicit: `iter` is the sequence in which the loop
visits the stored bindings (any permutation of `s.things`); the loop
deletes the first binding in that sequence whose value equals `id` and
returns nil either way. -/
def RemoveIter (s : ThingCacheState) (id : Str) (iter : SMap) :
    ThingCacheState × Option CacheErr :=
  ({ s with things := removeFirstByValue id iter }, none)

/-- `thingCacheMock.SaveGroup`: store/overwrite `thingID ↦ groupID`. -/
def SaveGroup (s : ThingCacheState) (thingID groupID : Str) :
    ThingCacheState × Option CacheErr :=
  ({ s with groups := mapInsert thingID groupID s.groups }, none)

/-- `thingCacheMock.ViewGroup`: resolve a thing id to its group id, or
`ErrNotFound`. -/
def ViewGroup (s : ThingCacheState) (thingID : Str) : Except CacheErr Str :=
  match mapLookup thingID s.groups with
  | some groupID => .ok groupID
  | none => .error .errNotFound

/-- `thingCacheMock.RemoveGroup`: delete the binding of `thingID`. -/
def RemoveGroup (s : ThingCacheState) (thingID : Str) :
    ThingCacheState × Option CacheErr :=
  ({ s with groups := mapDelete thingID s.groups }, none)

end thingCacheMock

/-- State of `profileCacheMock`: profile id → group id. -/
structure ProfileCacheState where
  groups : SMap
  deriving DecidableEq, Repr

/-- `NewProfileCache`. -/
def newProfileCache : ProfileCacheState := ⟨[]⟩

namespace profileCacheMock

/-- `profileCacheMock.SaveGroup`: store/overwrite `profileID ↦ groupID`. -/
def SaveGroup (s : ProfileCacheState) (profileID groupID : Str) :
    ProfileCacheState × Option CacheErr :=
  ({ groups := mapInsert profileID groupID s.groups }, none)

/-- `profileCacheMock.ViewGroup`: resolve a profile id to its group id,
or `ErrNotFound`. -/
def ViewGroup (s : ProfileCacheState) (profileID : Str) : Except CacheErr Str :=
  match mapLookup profileID s.groups with
  | some groupID => .ok groupID
  | none => .error .errNotFound

/-- `profileCacheMock.RemoveGroup`: delete the binding of `profileID`. -/
def RemoveGroup (s : ProfileCacheState) (profileID : Str) :
    ProfileCacheState × Option CacheErr :=
  ({ groups := mapDelete profileID s.groups }, none)

end profileCacheMock

/-- State of `groupCacheMock`: group id → org id, and composite role key
→ role. -/
structure GroupCacheState where
  orgs : SMap
  roles : SMap
  deriving DecidableEq, Repr

/-- `NewGroupCache`. -/
def newGroupCache : GroupCacheState := ⟨[], []⟩

namespace groupCacheMock

/-- `groupCacheMock.SaveOrg`: store/overwrite `groupID ↦ orgID`. -/
def SaveOrg (s : GroupCacheState) (groupID orgID : Str) :
    GroupCacheState × Option CacheErr :=
  ({ s with orgs := mapInsert groupID orgID s.orgs }, none)

/-- `groupCacheMock.ViewOrg`: resolve a group id to its org id, or
`ErrNotFound`. -/
def ViewOrg (s : GroupCacheState) (groupID : Str) : Except CacheErr Str :=
  match mapLookup groupID s.orgs with
  | some orgID => .ok orgID
  | none => .error .errNotFound

/-- `groupCacheMock.RemoveOrg`: delete the binding of `groupID`. -/
def RemoveOrg (s : GroupCacheState) (groupID : Str) :
    GroupCacheState × Option CacheErr :=
  ({ s with orgs := mapDelete groupID s.orgs }, none)

/-- `groupCacheMock.SaveRole`: store/overwrite the role under the
composite key `rKey groupID memberID`. -/
def SaveRole (s : GroupCacheState) (groupID memberID role : Str) :
    GroupCacheState × Option CacheErr :=
  ({ s with roles := mapInsert (rKey groupID memberID) role s.roles }, none)

/-- `groupCacheMock.ViewRole`: look up the role under the composite key,
or `ErrNotFound`. -/
def ViewRole (s : GroupCacheState) (groupID memberID : Str) : Except CacheErr Str :=
  match mapLookup (rKey groupID memberID) s.roles with
  | some role => .ok role
  | none => .error .errNotFound

/-- `groupCacheMock.RemoveRole`: delete the binding of the composite key. -/
def RemoveRole (s : GroupCacheState) (groupID memberID : Str) :
    GroupCacheState × Option CacheErr :=
  ({ s with roles := mapDelete (rKey groupID memberID) s.roles }, none)

/-- The scan of `GroupMemberships`: for every role key `k`,
`parts := strings.Split(k, ":")`; if `parts[1] == memberID` the group
`parts[0]` is appended.  The Go code indexes `parts[1]` directly; the
default of `getD` is never consulted because every reachable key contains
a colon, so the split has at least two components. -/
def membershipScan (memberID : Str) : SMap → List Str
  | [] => []
  | (k, _) :: rest =>
    let parts := splitOnColon k
    if parts.getD 1 [] = memberID then parts.getD 0 [] :: membershipScan memberID rest
    else membershipScan memberID rest

/-- `groupCacheMock.GroupMemberships`: scan all role assignments and
collect the groups in which `memberID` appears; always succeeds. -/
def GroupMemberships (s : GroupCacheState) (memberID : Str) :
    List Str × Option CacheErr :=
  (membershipScan memberID s.roles, none)

end groupCacheMock

/-- States of `thingCacheMock` reachable from `NewThingCache` by its
operations (lookups do not change the state). -/
inductive ThingCacheReachable : ThingCacheState → Prop where
  | init : ThingCacheReachable newThingCache
  | stepSave (s : ThingCacheState) (key id : Str) :
      ThingCacheReachable s → ThingCacheReachable (thingCacheMock.Save s key id).1
  | stepRemove (s : ThingCacheState) (id : Str) :
      ThingCacheReachable s → ThingCacheReachable (thingCacheMock.Remove s id).1
  | stepSaveGroup (s : ThingCacheState) (thingID groupID : Str) :
      ThingCacheReachable s →
      ThingCacheReachable (thingCacheMock.SaveGroup s thingID groupID).1
  | stepRemoveGroup (s : ThingCacheState) (thingID : Str) :
      ThingCacheReachable s →
      ThingCacheReachable (thingCacheMock.RemoveGroup s thingID).1

/-- States of `groupCacheMock` reachable from `NewGroupCache` by its
operations (lookups do not change the state). -/
inductive GroupCacheReachable : GroupCacheState → Prop where
  | init : GroupCacheReachable newGroupCache
  | stepSaveOrg (s : GroupCacheState) (groupID orgID : Str) :
      GroupCacheReachable s → GroupCacheReachable (groupCacheMock.SaveOrg s groupID orgID).1
  | stepRemoveOrg (s : GroupCacheState) (groupID : Str) :
      GroupCacheReachable s → GroupCacheReachable (groupCacheMock.RemoveOrg s groupID).1
  | stepSaveRole (s : GroupCacheState) (groupID memberID role : Str) :
      GroupCacheReachable s →
      GroupCacheReachable (groupCacheMock.SaveRole s groupID memberID role).1
  | stepRemoveRole (s : GroupCacheState) (groupID memberID : Str) :
      GroupCacheReachable s →
      GroupCacheReachable (groupCacheMock.RemoveRole s groupID memberID).1

/-! ### Association-list lemmas -/

theorem mapLookup_mapInsert_self (k v : Str) (m : SMap) :
    mapLookup k (mapInsert k v m) = some v := by
  induction m with
  | nil => simp [mapInsert, mapLookup]
  | cons p rest ih =>
    obtain ⟨k', v'⟩ := p
    by_cases h : k' = k
    · simp [mapInsert, mapLookup, h]
    · simp [mapInsert, mapLookup, h, ih]

theorem mapLookup_mapInsert_ne (k k' v : Str) (m : SMap) (h : k' ≠ k) :
    mapLookup k' (mapInsert k v m) = mapLookup k' m := by
  induction m with
  | nil => simp [mapInsert, mapLookup, Ne.symm h]
  | cons p rest ih =>
    obtain ⟨a, b⟩ := p
    by_cases hak : a = k
    · subst hak
      simp [mapInsert, mapLookup, Ne.symm h]
    · by_cases hak' : a = k'
      · simp [mapInsert, mapLookup, hak, hak', h]
      · simp [mapInsert, mapLookup, hak, hak', ih]

theorem mapLookup_mapDelete_self (k : Str) (m : SMap) :
    mapLookup k (mapDelete k m) = none := by
  induction m with
  | nil => simp [mapDelete, mapLookup]
  | cons p rest ih =>
    obtain ⟨a, b⟩ := p
    by_cases hak : a = k
    · simp [mapDelete, hak, ih]
    · simp [mapDelete, mapLookup, hak, ih]

theorem mapLookup_mapDelete_ne (k k' : Str) (m : SMap) (h : k' ≠ k) :
    mapLookup k' (mapDelete k m) = mapLookup k' m := by
  induction m with
  | nil => simp [mapDelete]
  | cons p rest ih =>
    obtain ⟨a, b⟩ := p
    by_cases hak : a = k
    · subst hak
      simp [mapDelete, mapLookup, Ne.symm h, ih]
    · simp [mapDelete, mapLookup, hak, ih]

theorem mapLookup_eq_none_iff (k : Str) (m : SMap) :
    mapLookup k m = none ↔ k ∉ m.map Prod.fst := by
  induction m with
  | nil => simp [mapLookup]
  | cons p rest ih =>
    obtain ⟨a, b⟩ := p
    by_cases hak : a = k
    · simp [mapLookup, hak]
    · simp [mapLookup, hak, ih, Ne.symm hak]

theorem mapDelete_eq_of_lookup_none (k : Str) (m : SMap)
    (h : mapLookup k m = none) : mapDelete k m = m := by
  induction m with
  | nil => rfl
  | cons p rest ih =>
    obtain ⟨a, b⟩ := p
    by_cases hak : a = k
    · simp [mapLookup, hak] at h
    · simp [mapLookup, hak] at h
      simp [mapDelete, hak, ih h]

theorem removeFirstByValue_eq_of_no_match (v : Str) (m : SMap)
    (h : ∀ p ∈ m, p.2 ≠ v) : removeFirstByValue v m = m := by
  induction m with
  | nil => rfl
  | cons p rest ih =>
    obtain ⟨a, b⟩ := p
    have hb : b ≠ v := h (a, b) (List.mem_cons_self _ _)
    simp [removeFirstByValue, hb]
    exact ih fun q hq => h q (List.mem_cons_of_mem _ hq)

theorem mapDelete_sublist (k : Str) (m : SMap) : List.Sublist (mapDelete k m) m := by
  induction m with
  | nil => simp [mapDelete]
  | cons p rest ih =>
    obtain ⟨a, b⟩ := p
    by_cases hak : a = k
    · simp only [mapDelete, if_pos hak]
      exact ih.cons _
    · simp only [mapDelete, if_neg hak]
      exact ih.cons₂ _

theorem removeFirstByValue_sublist (v : Str) (m : SMap) :
    List.Sublist (removeFirstByValue v m) m := by
  induction m with
  | nil => simp [removeFirstByValue]
  | cons p rest ih =>
    obtain ⟨a, b⟩ := p
    by_cases hbv : b = v
    · simp only [removeFirstByValue, if_pos hbv]
      exact (List.Sublist.refl rest).cons _
    · simp only [removeFirstByValue, if_neg hbv]
      exact ih.cons₂ _

theorem mem_keys_mapInsert (a k v : Str) (m : SMap) :
    a ∈ (mapInsert k v m).map Prod.fst ↔ a = k ∨ a ∈ m.map Prod.fst := by
  induction m with
  | nil => simp [mapInsert]
  | cons p rest ih =>
    obtain ⟨b, c⟩ := p
    by_cases hbk : b = k
    · subst hbk
      simp [mapInsert]
    · simp [mapInsert, hbk, ih]
      tauto

theorem nodupKeys_mapInsert (k v : Str) (m : SMap) :
    (m.map Prod.fst).Nodup → ((mapInsert k v m).map Prod.fst).Nodup := by
  induction m with
  | nil => intro _; simp [mapInsert]
  | cons p rest ih =>
    obtain ⟨a, b⟩ := p
    intro h
    simp only [List.map_cons, List.nodup_cons] at h
    by_cases hak : a = k
    · subst hak
      simpa [mapInsert] using h
    · simp only [mapInsert, if_neg hak, List.map_cons, List.nodup_cons]
      refine ⟨fun hmem => ?_, ih h.2⟩
      rcases (mem_keys_mapInsert a k v rest).mp hmem with h1 | h1
      · exact hak h1
      · exact h.1 h1

theorem mem_mapInsert {p : Str × Str} {k v : Str} {m : SMap} :
    p ∈ mapInsert k v m → p = (k, v) ∨ p ∈ m := by
  induction m with
  | nil => intro h; simpa [mapInsert] using h
  | cons q rest ih =>
    obtain ⟨a, b⟩ := q
    intro h
    by_cases hak : a = k
    · subst hak
      simp only [mapInsert, if_true, List.mem_cons, eq_self_iff_true] at h
      rcases h with h | h
      · exact Or.inl h
      · exact Or.inr (List.mem_cons_of_mem _ h)
    · simp only [mapInsert, if_neg hak, List.mem_cons] at h
      rcases h with h | h
      · exact Or.inr (h ▸ List.mem_cons_self _ _)
      · rcases ih h with h1 | h1
        · exact Or.inl h1
        · exact Or.inr (List.mem_cons_of_mem _ h1)

theorem mem_mapDelete {p : Str × Str} {k : Str} {m : SMap}
    (h : p ∈ mapDelete k m) : p ∈ m :=
  (mapDelete_sublist k m).subset h

theorem mem_keys_of_mapLookup_ne_none {k : Str} {m : SMap}
    (h : mapLookup k m ≠ none) : ∃ v, (k, v) ∈ m := by
  have hk : k ∈ m.map Prod.fst := by
    by_contra hk
    exact h ((mapLookup_eq_none_iff k m).mpr hk)
  rcases List.mem_map.mp hk with ⟨⟨a, b⟩, hmem, hfst⟩
  exact ⟨b, by simpa [← hfst] using hmem⟩

theorem mapLookup_ne_none_of_mem {k v : Str} {m : SMap}
    (h : (k, v) ∈ m) : mapLookup k m ≠ none := by
  rw [Ne, mapLookup_eq_none_iff]
  intro hk
  exact hk (List.mem_map.mpr ⟨(k, v), h, rfl⟩)

theorem perm_of_perm_pair {l : SMap} {a b : Str × Str} (h : l.Perm [a, b]) :
    l = [a, b] ∨ l = [b, a] := by
  rcases l with _ | ⟨x, _ | ⟨y, _ | ⟨z, rest⟩⟩⟩
  · simpa using h.length_eq
  · simpa using h.length_eq
  · have hx : x ∈ [a, b] := h.subset (List.mem_cons_self _ _)
    rcases List.mem_cons.mp hx with rfl | hx2
    · have hy : y = b := by
        simpa using (h.cons_inv).mem_iff.mp (List.mem_cons_self y [])
      left
      rw [hy]
    · have hxb : x = b := by simpa using hx2
      have h2 : List.Perm [y] [a] := by
        rw [hxb] at h
        exact (h.trans (List.Perm.swap b a [])).cons_inv
      have hy : y = a := by
        simpa using h2.mem_iff.mp (List.mem_cons_self y [])
      right
      rw [hxb, hy]
  · simpa using h.length_eq

/-! ### Lemmas about `splitOnColon` and `rKey` -/

theorem splitOnColon_ne_nil (s : Str) : splitOnColon s ≠ [] := by
  cases s with
  | nil => simp [splitOnColon]
  | cons c rest =>
    by_cases h : c = ':'
    · simp [splitOnColon, h]
    · simp only [splitOnColon, if_neg h]
      cases h2 : splitOnColon rest <;> simp

theorem splitOnColon_of_no_colon (s : Str) (h : ':' ∉ s) : splitOnColon s = [s] := by
  induction s with
  | nil => rfl
  | cons c rest ih =>
    simp only [List.mem_cons, not_or] at h
    have hc : ¬c = ':' := fun hc => h.1 hc.symm
    simp only [splitOnColon, if_neg hc, ih h.2]

theorem splitOnColon_append (g m : Str) (hg : ':' ∉ g) :
    splitOnColon (g ++ ':' :: m) = g :: splitOnColon m := by
  induction g with
  | nil => simp [splitOnColon]
  | cons c g' ih =>
    simp only [List.mem_cons, not_or] at hg
    have hc : ¬c = ':' := fun hc => hg.1 hc.symm
    simp only [List.cons_append, splitOnColon, if_neg hc, List.append_eq, ih hg.2]

theorem splitOnColon_rKey (g m : Str) (hg : ':' ∉ g) (hm : ':' ∉ m) :
    splitOnColon (rKey g m) = [g, m] := by
  rw [rKey, splitOnColon_append g m hg, splitOnColon_of_no_colon m hm]

theorem splitOnColon_length (s : Str) :
    (splitOnColon s).length = s.count ':' + 1 := by
  induction s with
  | nil => simp [splitOnColon]
  | cons c rest ih =>
    by_cases h : c = ':'
    · subst h
      simp [splitOnColon, List.count_cons, ih]
    · have hne := splitOnColon_ne_nil rest
      simp only [splitOnColon, if_neg h]
      cases h2 : splitOnColon rest with
      | nil => exact absurd h2 hne
      | cons p ps =>
        rw [h2] at ih
        simp only [List.length_cons] at ih ⊢
        rw [List.count_cons]
        simp only [beq_iff_eq, h, if_false]
        omega

theorem colon_mem_rKey (g m : Str) : ':' ∈ rKey g m := by
  simp [rKey]

theorem count_colon_rKey (g m : Str) :
    (rKey g m).count ':' = g.count ':' + m.count ':' + 1 := by
  simp [rKey, List.count_append, List.count_cons]
  omega

theorem rKey_inj {g m g' m' : Str} (hg : ':' ∉ g) (hm : ':' ∉ m)
    (hg' : ':' ∉ g') (hm' : ':' ∉ m') (h : rKey g m = rKey g' m') :
    g = g' ∧ m = m' := by
  have h2 := congrArg splitOnColon h
  rw [splitOnColon_rKey g m hg hm, splitOnColon_rKey g' m' hg' hm'] at h2
  simpa using h2

theorem no_colon_of_rKey_eq {g memberID g' m' : Str} (hm : ':' ∉ memberID)
    (hg' : ':' ∉ g') (hm' : ':' ∉ m') (h : rKey g memberID = rKey g' m') :
    ':' ∉ g := by
  have hc := congrArg (List.count ':') h
  rw [count_colon_rKey, count_colon_rKey] at hc
  rw [List.count_eq_zero.mpr hm, List.count_eq_zero.mpr hg',
    List.count_eq_zero.mpr hm'] at hc
  rw [← List.count_eq_zero (a := ':')]
  omega

/-! ### Lemmas about the membership scan -/

theorem mem_membershipScan (g memberID : Str) (l : SMap) :
    g ∈ groupCacheMock.membershipScan memberID l ↔
      ∃ p ∈ l, (splitOnColon p.1).getD 1 [] = memberID ∧
        (splitOnColon p.1).getD 0 [] = g := by
  induction l with
  | nil => simp [groupCacheMock.membershipScan]
  | cons p rest ih =>
    obtain ⟨k, v⟩ := p
    by_cases h : (splitOnColon k).getD 1 [] = memberID
    · simp only [groupCacheMock.membershipScan, if_pos h, List.mem_cons, ih]
      constructor
      · rintro (rfl | ⟨q, hq, h1, h2⟩)
        · exact ⟨(k, v), Or.inl rfl, h, rfl⟩
        · exact ⟨q, Or.inr hq, h1, h2⟩
      · rintro ⟨q, hq, h1, h2⟩
        rcases hq with rfl | hq'
        · exact Or.inl h2.symm
        · exact Or.inr ⟨q, hq', h1, h2⟩
    · simp only [groupCacheMock.membershipScan, if_neg h, List.mem_cons, ih]
      constructor
      · rintro ⟨q, hq, h1, h2⟩
        exact ⟨q, Or.inr hq, h1, h2⟩
      · rintro ⟨q, hq, h1, h2⟩
        rcases hq with rfl | hq'
        · exact absurd h1 h
        · exact ⟨q, hq', h1, h2⟩

theorem membershipScan_nodup (memberID : Str) (l : SMap)
    (hnd : (l.map Prod.fst).Nodup)
    (hw : ∀ p ∈ l, ∃ g m, ':' ∉ g ∧ ':' ∉ m ∧ p.1 = rKey g m) :
    (groupCacheMock.membershipScan memberID l).Nodup := by
  induction l with
  | nil => simp [groupCacheMock.membershipScan]
  | cons p rest ih =>
    obtain ⟨k, v⟩ := p
    simp only [List.map_cons, List.nodup_cons] at hnd
    have hw' : ∀ q ∈ rest, ∃ g m, ':' ∉ g ∧ ':' ∉ m ∧ q.1 = rKey g m :=
      fun q hq => hw q (List.mem_cons_of_mem _ hq)
    by_cases h : (splitOnColon k).getD 1 [] = memberID
    · simp only [groupCacheMock.membershipScan, if_pos h, List.nodup_cons]
      refine ⟨fun hmem => ?_, ih hnd.2 hw'⟩
      rcases (mem_membershipScan _ _ _).mp hmem with ⟨q, hq, h1, h2⟩
      obtain ⟨g0, m0, hg0, hm0, hk⟩ := hw (k, v) (List.mem_cons_self _ _)
      obtain ⟨g1, m1, hg1, hm1, hq1⟩ := hw' q hq
      simp only at hk
      rw [hq1, splitOnColon_rKey g1 m1 hg1 hm1] at h1 h2
      rw [hk, splitOnColon_rKey g0 m0 hg0 hm0] at h h2
      simp at h h1 h2
      have hkq : q.1 = k := by
        rw [hq1, hk, h2, h1, h]
      exact hnd.1 (by rw [← hkq]; exact List.mem_map.mpr ⟨q, hq, rfl⟩)
    · simp only [groupCacheMock.membershipScan, if_neg h]
      exact ih hnd.2 hw'

/-! ### Invariants of reachable cache states -/

theorem thingReachable_nodupKeys {s : ThingCacheState}
    (h : ThingCacheReachable s) : (s.things.map Prod.fst).Nodup := by
  induction h with
  | init => simp [newThingCache]
  | stepSave s key id _ ih =>
    exact nodupKeys_mapInsert key id s.things ih
  | stepRemove s id _ ih =>
    exact List.Nodup.sublist
      (List.Sublist.map Prod.fst (removeFirstByValue_sublist id s.things)) ih
  | stepSaveGroup s thingID groupID _ ih => exact ih
  | stepRemoveGroup s thingID _ ih => exact ih

theorem groupReachable_roles_wellformed {s : GroupCacheState}
    (h : GroupCacheReachable s) : ∀ p ∈ s.roles, ':' ∈ p.1 := by
  induction h with
  | init => simp [newGroupCache]
  | stepSaveOrg s groupID orgID _ ih => exact ih
  | stepRemoveOrg s groupID _ ih => exact ih
  | stepSaveRole s groupID memberID role _ ih =>
    intro p hp
    rcases mem_mapInsert hp with h1 | h1
    · rw [h1]
      exact colon_mem_rKey groupID memberID
    · exact ih p h1
  | stepRemoveRole s groupID memberID _ ih =>
    intro p hp
    exact ih p (mem_mapDelete hp)

/-! ### Claim theorems -/

/-- C4: for every one of the four caches and every key/value pair, `Save`
followed by the matching `Resolve` of the same key returns the saved
value; in particular for the role cache, `SaveRole groupID memberID role`
then `ViewRole groupID memberID` returns `role`, and after
`RemoveRole groupID memberID` the `ViewRole` fails with NotFound. -/
theorem save_resolve_roundtrip (sT : ThingCacheState) (sP : ProfileCacheState)
    (sG : GroupCacheState)
    (key id thingID profileID groupID orgID memberID role : Str) :
    thingCacheMock.ID (thingCacheMock.Save sT key id).1 key = .ok id ∧
    thingCacheMock.ViewGroup (thingCacheMock.SaveGroup sT thingID groupID).1 thingID =
      .ok groupID ∧
    profileCacheMock.ViewGroup (profileCacheMock.SaveGroup sP profileID groupID).1
      profileID = .ok groupID ∧
    groupCacheMock.ViewOrg (groupCacheMock.SaveOrg sG groupID orgID).1 groupID =
      .ok orgID ∧
    groupCacheMock.ViewRole (groupCacheMock.SaveRole sG groupID memberID role).1
      groupID memberID = .ok role ∧
    groupCacheMock.ViewRole (groupCacheMock.RemoveRole sG groupID memberID).1
      groupID memberID = .error .errNotFound := by
  refine ⟨?_, ?_, ?_, ?_, ?_, ?_⟩
  · simp [thingCacheMock.ID, thingCacheMock.Save, mapLookup_mapInsert_self]
  · simp [thingCacheMock.ViewGroup, thingCacheMock.SaveGroup, mapLookup_mapInsert_self]
  · simp [profileCacheMock.ViewGroup, profileCacheMock.SaveGroup, mapLookup_mapInsert_self]
  · simp [groupCacheMock.ViewOrg, groupCacheMock.SaveOrg, mapLookup_mapInsert_self]
  · simp [groupCacheMock.ViewRole, groupCacheMock.SaveRole, mapLookup_mapInsert_self]
  · simp [groupCacheMock.ViewRole, groupCacheMock.RemoveRole, mapLookup_mapDelete_self]

/-- C5: `Save` overwrites rather than accumulates: after
`Save key id1; Save key id2`, resolving `key` returns `id2`; and in every
reachable credential-cache state the keys of the underlying map are
duplicate-free, so each key maps to at most one value. -/
theorem save_overwrite_at_most_one (s : ThingCacheState) (key id1 id2 : Str)
    (_hne : id1 ≠ id2) (hr : ThingCacheReachable s) :
    thingCacheMock.ID
      (thingCacheMock.Save (thingCacheMock.Save s key id1).1 key id2).1 key =
      .ok id2 ∧
    (s.things.map Prod.fst).Nodup := by
  refine ⟨?_, thingReachable_nodupKeys hr⟩
  simp [thingCacheMock.ID, thingCacheMock.Save, mapLookup_mapInsert_self]

/-- Witness for C5 at a concrete input. -/
theorem save_overwrite_at_most_one_witness :
    thingCacheMock.ID
      (thingCacheMock.Save
        (thingCacheMock.Save newThingCache ['k'] ['a']).1 ['k'] ['b']).1 ['k'] =
      .ok ['b'] ∧
    (newThingCache.things.map Prod.fst).Nodup :=
  save_overwrite_at_most_one newThingCache ['k'] ['a'] ['b'] (by decide)
    ThingCacheReachable.init

/-- C6: every point lookup on any of the four caches either succeeds or
fails with exactly the NotFound error kind (never any other error), and
it fails with NotFound precisely when the requested key has no entry in
the underlying map. -/
theorem resolve_fails_iff_absent (sT : ThingCacheState) (sP : ProfileCacheState)
    (sG : GroupCacheState) (key thingID profileID groupID memberID : Str) :
    (thingCacheMock.ID sT key = .error .errNotFound ∨
      ∃ v, thingCacheMock.ID sT key = .ok v) ∧
    (thingCacheMock.ID sT key = .error .errNotFound ↔
      mapLookup key sT.things = none) ∧
    (thingCacheMock.ViewGroup sT thingID = .error .errNotFound ∨
      ∃ v, thingCacheMock.ViewGroup sT thingID = .ok v) ∧
    (thingCacheMock.ViewGroup sT thingID = .error .errNotFound ↔
      mapLookup thingID sT.groups = none) ∧
    (profileCacheMock.ViewGroup sP profileID = .error .errNotFound ∨
      ∃ v, profileCacheMock.ViewGroup sP profileID = .ok v) ∧
    (profileCacheMock.ViewGroup sP profileID = .error .errNotFound ↔
      mapLookup profileID sP.groups = none) ∧
    (groupCacheMock.ViewOrg sG groupID = .error .errNotFound ∨
      ∃ v, groupCacheMock.ViewOrg sG groupID = .ok v) ∧
    (groupCacheMock.ViewOrg sG groupID = .error .errNotFound ↔
      mapLookup groupID sG.orgs = none) ∧
    (groupCacheMock.ViewRole sG groupID memberID = .error .errNotFound ∨
      ∃ v, groupCacheMock.ViewRole sG groupID memberID = .ok v) ∧
    (groupCacheMock.ViewRole sG groupID memberID = .error .errNotFound ↔
      mapLookup (rKey groupID memberID) sG.roles = none) := by
  refine ⟨?_, ?_, ?_, ?_, ?_, ?_, ?_, ?_, ?_, ?_⟩
  · unfold thingCacheMock.ID
    cases h : mapLookup key sT.things <;> simp
  · unfold thingCacheMock.ID
    cases h : mapLookup key sT.things <;> simp
  · unfold thingCacheMock.ViewGroup
    cases h : mapLookup thingID sT.groups <;> simp
  · unfold thingCacheMock.ViewGroup
    cases h : mapLookup thingID sT.groups <;> simp
  · unfold profileCacheMock.ViewGroup
    cases h : mapLookup profileID sP.groups <;> simp
  · unfold profileCacheMock.ViewGroup
    cases h : mapLookup profileID sP.groups <;> simp
  · unfold groupCacheMock.ViewOrg
    cases h : mapLookup groupID sG.orgs <;> simp
  · unfold groupCacheMock.ViewOrg
    cases h : mapLookup groupID sG.orgs <;> simp
  · unfold groupCacheMock.ViewRole
    cases h : mapLookup (rKey groupID memberID) sG.roles <;> simp
  · unfold groupCacheMock.ViewRole
    cases h : mapLookup (rKey groupID memberID) sG.roles <;> simp

/-- C7: every mutation of every cache returns success for all inputs and
states, and a removal that matches nothing is a no-op that leaves the
cache state unchanged. -/
theorem mutations_always_succeed (sT sT2 : ThingCacheState)
    (sP sP2 : ProfileCacheState) (sG sG2 : GroupCacheState)
    (key id thingID profileID groupID orgID memberID role rid rk rg rm : Str)
    (hT : ∀ p ∈ sT2.things, p.2 ≠ rid)
    (hTg : mapLookup rk sT2.groups = none)
    (hP : mapLookup rk sP2.groups = none)
    (hO : mapLookup rk sG2.orgs = none)
    (hR : mapLookup (rKey rg rm) sG2.roles = none) :
    ((thingCacheMock.Save sT key id).2 = none ∧
      (thingCacheMock.Remove sT id).2 = none ∧
      (thingCacheMock.SaveGroup sT thingID groupID).2 = none ∧
      (thingCacheMock.RemoveGroup sT thingID).2 = none ∧
      (profileCacheMock.SaveGroup sP profileID groupID).2 = none ∧
      (profileCacheMock.RemoveGroup sP profileID).2 = none ∧
      (groupCacheMock.SaveOrg sG groupID orgID).2 = none ∧
      (groupCacheMock.RemoveOrg sG groupID).2 = none ∧
      (groupCacheMock.SaveRole sG groupID memberID role).2 = none ∧
      (groupCacheMock.RemoveRole sG groupID memberID).2 = none) ∧
    ((thingCacheMock.Remove sT2 rid).1 = sT2 ∧
      (thingCacheMock.RemoveGroup sT2 rk).1 = sT2 ∧
      (profileCacheMock.RemoveGroup sP2 rk).1 = sP2 ∧
      (groupCacheMock.RemoveOrg sG2 rk).1 = sG2 ∧
      (groupCacheMock.RemoveRole sG2 rg rm).1 = sG2) := by
  refine ⟨⟨rfl, rfl, rfl, rfl, rfl, rfl, rfl, rfl, rfl, rfl⟩, ?_, ?_, ?_, ?_, ?_⟩
  · simp [thingCacheMock.Remove, removeFirstByValue_eq_of_no_match rid sT2.things hT]
  · simp [thingCacheMock.RemoveGroup, mapDelete_eq_of_lookup_none rk sT2.groups hTg]
  · simp [profileCacheMock.RemoveGroup, mapDelete_eq_of_lookup_none rk sP2.groups hP]
  · simp [groupCacheMock.RemoveOrg, mapDelete_eq_of_lookup_none rk sG2.orgs hO]
  · simp [groupCacheMock.RemoveRole,
      mapDelete_eq_of_lookup_none (rKey rg rm) sG2.roles hR]

/-- Witness for C7 at concrete inputs. -/
theorem mutations_always_succeed_witness :
    ((thingCacheMock.Save newThingCache ['k'] ['i']).2 = none ∧
      (thingCacheMock.Remove newThingCache ['i']).2 = none ∧
      (thingCacheMock.SaveGroup newThingCache ['t'] ['g']).2 = none ∧
      (thingCacheMock.RemoveGroup newThingCache ['t']).2 = none ∧
      (profileCacheMock.SaveGroup newProfileCache ['p'] ['g']).2 = none ∧
      (profileCacheMock.RemoveGroup newProfileCache ['p']).2 = none ∧
      (groupCacheMock.SaveOrg newGroupCache ['g'] ['o']).2 = none ∧
      (groupCacheMock.RemoveOrg newGroupCache ['g']).2 = none ∧
      (groupCacheMock.SaveRole newGroupCache ['g'] ['m'] ['r']).2 = none ∧
      (groupCacheMock.RemoveRole newGroupCache ['g'] ['m']).2 = none) ∧
    ((thingCacheMock.Remove newThingCache ['x']).1 = newThingCache ∧
      (thingCacheMock.RemoveGroup newThingCache ['x']).1 = newThingCache ∧
      (profileCacheMock.RemoveGroup newProfileCache ['x']).1 = newProfileCache ∧
      (groupCacheMock.RemoveOrg newGroupCache ['x']).1 = newGroupCache ∧
      (groupCacheMock.RemoveRole newGroupCache ['x'] ['y']).1 = newGroupCache) :=
  mutations_always_succeed newThingCache newThingCache newProfileCache
    newProfileCache newGroupCache newGroupCache
    ['k'] ['i'] ['t'] ['p'] ['g'] ['o'] ['m'] ['r'] ['x'] ['x'] ['x'] ['y']
    (fun p hp => absurd hp (List.not_mem_nil p)) rfl rfl rfl rfl

/-- C8: for the two parent-link caches (thing→group, profile→group) and
the group→org cache, removing a child key deletes exactly that key's
entry — every other key resolves to the same result before and after —
and the removed key itself then resolves to NotFound. -/
theorem remove_exact_key_frame (sT : ThingCacheState) (sP : ProfileCacheState)
    (sG : GroupCacheState) (childID childID2 : Str) (h : childID2 ≠ childID) :
    thingCacheMock.ViewGroup (thingCacheMock.RemoveGroup sT childID).1 childID2 =
      thingCacheMock.ViewGroup sT childID2 ∧
    thingCacheMock.ViewGroup (thingCacheMock.RemoveGroup sT childID).1 childID =
      .error .errNotFound ∧
    profileCacheMock.ViewGroup (profileCacheMock.RemoveGroup sP childID).1 childID2 =
      profileCacheMock.ViewGroup sP childID2 ∧
    profileCacheMock.ViewGroup (profileCacheMock.RemoveGroup sP childID).1 childID =
      .error .errNotFound ∧
    groupCacheMock.ViewOrg (groupCacheMock.RemoveOrg sG childID).1 childID2 =
      groupCacheMock.ViewOrg sG childID2 ∧
    groupCacheMock.ViewOrg (groupCacheMock.RemoveOrg sG childID).1 childID =
      .error .errNotFound := by
  refine ⟨?_, ?_, ?_, ?_, ?_, ?_⟩
  · simp [thingCacheMock.ViewGroup, thingCacheMock.RemoveGroup,
      mapLookup_mapDelete_ne childID childID2 sT.groups h]
  · simp [thingCacheMock.ViewGroup, thingCacheMock.RemoveGroup,
      mapLookup_mapDelete_self]
  · simp [profileCacheMock.ViewGroup, profileCacheMock.RemoveGroup,
      mapLookup_mapDelete_ne childID childID2 sP.groups h]
  · simp [profileCacheMock.ViewGroup, profileCacheMock.RemoveGroup,
      mapLookup_mapDelete_self]
  · simp [groupCacheMock.ViewOrg, groupCacheMock.RemoveOrg,
      mapLookup_mapDelete_ne childID childID2 sG.orgs h]
  · simp [groupCacheMock.ViewOrg, groupCacheMock.RemoveOrg,
      mapLookup_mapDelete_self]

/-- Witness for C8 at concrete inputs. -/
theorem remove_exact_key_frame_witness :
    thingCacheMock.ViewGroup (thingCacheMock.RemoveGroup newThingCache ['a']).1 ['b'] =
      thingCacheMock.ViewGroup newThingCache ['b'] ∧
    thingCacheMock.ViewGroup (thingCacheMock.RemoveGroup newThingCache ['a']).1 ['a'] =
      .error .errNotFound ∧
    profileCacheMock.ViewGroup (profileCacheMock.RemoveGroup newProfileCache ['a']).1
      ['b'] = profileCacheMock.ViewGroup newProfileCache ['b'] ∧
    profileCacheMock.ViewGroup (profileCacheMock.RemoveGroup newProfileCache ['a']).1
      ['a'] = .error .errNotFound ∧
    groupCacheMock.ViewOrg (groupCacheMock.RemoveOrg newGroupCache ['a']).1 ['b'] =
      groupCacheMock.ViewOrg newGroupCache ['b'] ∧
    groupCacheMock.ViewOrg (groupCacheMock.RemoveOrg newGroupCache ['a']).1 ['a'] =
      .error .errNotFound :=
  remove_exact_key_frame newThingCache newProfileCache newGroupCache
    ['a'] ['b'] (by decide)

/-- C9: in every reachable group-cache state, every key of the internal
roles map was produced by `rKey` and so contains the separator character;
hence the split performed by the membership scan has at least two
components and the accesses to components 0 and 1 are in bounds. -/
theorem roles_keys_wellformed {s : GroupCacheState} (hr : GroupCacheReachable s)
    {p : Str × Str} (hp : p ∈ s.roles) :
    ':' ∈ p.1 ∧ 2 ≤ (splitOnColon p.1).length := by
  have hc : ':' ∈ p.1 := groupReachable_roles_wellformed hr p hp
  refine ⟨hc, ?_⟩
  have hcount : 0 < p.1.count ':' := List.count_pos_iff.mpr hc
  have hlen := splitOnColon_length p.1
  omega

/-- Witness for C9 at a concrete reachable state. -/
theorem roles_keys_wellformed_witness :
    ':' ∈ (['g', ':', 'm'], ['r']).1 ∧
    2 ≤ (splitOnColon (['g', ':', 'm'], ['r']).1).length :=
  roles_keys_wellformed
    (GroupCacheReachable.stepSaveRole newGroupCache ['g'] ['m'] ['r']
      GroupCacheReachable.init)
    (by decide)

/-- C10 (counterexample): after `SaveRole "a:b" "c" "r"` the member
`"b"` has no role assignment in any group — `ViewRole g "b"` fails with
NotFound for every `g` — yet `GroupMemberships "b"` returns `["a"]`
rather than the empty list, because the scan splits the stored key
`"a:b:c"` into `["a", "b", "c"]` and matches `parts[1] = "b"`. -/
theorem memberships_no_assignment_nonempty_cex :
    (∀ g : Str, groupCacheMock.ViewRole
      (groupCacheMock.SaveRole newGroupCache ['a', ':', 'b'] ['c'] ['r']).1
      g ['b'] = .error .errNotFound) ∧
    (groupCacheMock.GroupMemberships
      (groupCacheMock.SaveRole newGroupCache ['a', ':', 'b'] ['c'] ['r']).1
      ['b']).1 = [['a']] := by
  constructor
  · intro g
    have hne : (['a', ':', 'b', ':', 'c'] : Str) ≠ rKey g ['b'] := by
      intro heq
      have hlast := congrArg List.getLast? heq
      rw [rKey, List.getLast?_append_cons] at hlast
      simp at hlast
    have hroles :
        (groupCacheMock.SaveRole newGroupCache ['a', ':', 'b'] ['c'] ['r']).1.roles
          = [((['a', ':', 'b', ':', 'c'] : Str), (['r'] : Str))] := rfl
    have hlk : mapLookup (rKey g ['b'])
        [((['a', ':', 'b', ':', 'c'] : Str), (['r'] : Str))] = none := by
      simp [mapLookup, hne]
    simp [groupCacheMock.ViewRole, hroles, hlk]
  · rfl

/-- C10 (amended): `GroupMemberships` never fails — it returns success
for every member and every cache state — and it returns the empty list
rather than a NotFound error when the member has no role assignment in
any group, provided the stored identifiers are separator-free (every
roles key decomposes as `rKey` of colon-free components). -/
theorem memberships_never_fail_sep_free (s : GroupCacheState) (memberID : Str)
    (hw : ∀ p ∈ s.roles, ∃ g m, ':' ∉ g ∧ ':' ∉ m ∧ p.1 = rKey g m)
    (hn : ∀ g, mapLookup (rKey g memberID) s.roles = none) :
    (∀ (s2 : GroupCacheState) (m2 : Str),
      (groupCacheMock.GroupMemberships s2 m2).2 = none) ∧
    (groupCacheMock.GroupMemberships s memberID).1 = [] := by
  refine ⟨fun s2 m2 => rfl, ?_⟩
  rw [List.eq_nil_iff_forall_not_mem]
  intro g hg
  rcases (mem_membershipScan g memberID s.roles).mp hg with ⟨p, hp, h1, h2⟩
  obtain ⟨g1, m1, hg1, hm1, hp1⟩ := hw p hp
  rw [hp1, splitOnColon_rKey g1 m1 hg1 hm1] at h1 h2
  simp at h1 h2
  have hmem : (rKey g memberID, p.2) ∈ s.roles := by
    have : p.1 = rKey g memberID := by rw [hp1, h1, h2]
    rw [← this]
    simpa using hp
  exact mapLookup_ne_none_of_mem hmem (hn g)

/-- Witness for the amended C10 at a concrete input. -/
theorem memberships_never_fail_sep_free_witness :
    (∀ (s2 : GroupCacheState) (m2 : Str),
      (groupCacheMock.GroupMemberships s2 m2).2 = none) ∧
    (groupCacheMock.GroupMemberships newGroupCache ['x']).1 = [] :=
  memberships_never_fail_sep_free newGroupCache ['x']
    (fun p hp => absurd hp (List.not_mem_nil p)) (fun _ => rfl)

/-- C1 (counterexample): after `Save "a" "x"; Save "b" "x"; Remove "x"`
it is not the case that both resolves fail with NotFound — the scan of
`Remove` returns after deleting the first match, so `"b"` still resolves. -/
theorem remove_by_value_leaves_second_cex :
    ¬ (thingCacheMock.ID
        (thingCacheMock.Remove
          (thingCacheMock.Save (thingCacheMock.Save newThingCache ['a'] ['x']).1
            ['b'] ['x']).1 ['x']).1 ['a'] = .error .errNotFound ∧
      thingCacheMock.ID
        (thingCacheMock.Remove
          (thingCacheMock.Save (thingCacheMock.Save newThingCache ['a'] ['x']).1
            ['b'] ['x']).1 ['x']).1 ['b'] = .error .errNotFound) := by
  intro h
  have h2 : (Except.ok ['x'] : Except CacheErr Str) =
      Except.error CacheErr.errNotFound := h.2
  exact Except.noConfusion h2

/-- C1 (amended): `Remove id` removes exactly one entry whose value
equals `id` — which one depends on the unspecified Go map iteration
order: after `Save k1 id; Save k2 id; Remove id` from the empty cache
with `k1 ≠ k2`, under every iteration order of the scan exactly one of
resolving `k1`, `k2` fails with NotFound while the other still returns
`id`. -/
theorem remove_by_value_exactly_one (k1 k2 id : Str) (h : k1 ≠ k2) (iter : SMap)
    (hiter : iter.Perm
      (thingCacheMock.Save (thingCacheMock.Save newThingCache k1 id).1 k2 id).1.things) :
    (thingCacheMock.ID
        (thingCacheMock.RemoveIter
          (thingCacheMock.Save (thingCacheMock.Save newThingCache k1 id).1 k2 id).1
          id iter).1 k1 = .error .errNotFound ∧
      thingCacheMock.ID
        (thingCacheMock.RemoveIter
          (thingCacheMock.Save (thingCacheMock.Save newThingCache k1 id).1 k2 id).1
          id iter).1 k2 = .ok id) ∨
    (thingCacheMock.ID
        (thingCacheMock.RemoveIter
          (thingCacheMock.Save (thingCacheMock.Save newThingCache k1 id).1 k2 id).1
          id iter).1 k2 = .error .errNotFound ∧
      thingCacheMock.ID
        (thingCacheMock.RemoveIter
          (thingCacheMock.Save (thingCacheMock.Save newThingCache k1 id).1 k2 id).1
          id iter).1 k1 = .ok id) := by
  have hthings :
      (thingCacheMock.Save (thingCacheMock.Save newThingCache k1 id).1 k2 id).1.things
        = [(k1, id), (k2, id)] := by
    simp [thingCacheMock.Save, newThingCache, mapInsert, h]
  rw [hthings] at hiter
  rcases perm_of_perm_pair hiter with rfl | rfl
  · left
    constructor
    · simp [thingCacheMock.RemoveIter, thingCacheMock.ID, removeFirstByValue,
        mapLookup, Ne.symm h]
    · simp [thingCacheMock.RemoveIter, thingCacheMock.ID, removeFirstByValue,
        mapLookup]
  · right
    constructor
    · simp [thingCacheMock.RemoveIter, thingCacheMock.ID, removeFirstByValue,
        mapLookup, h]
    · simp [thingCacheMock.RemoveIter, thingCacheMock.ID, removeFirstByValue,
        mapLookup]

/-- Witness for the amended C1 at concrete inputs and a concrete
iteration order. -/
theorem remove_by_value_exactly_one_witness :
    (thingCacheMock.ID
        (thingCacheMock.RemoveIter
          (thingCacheMock.Save (thingCacheMock.Save newThingCache ['a'] ['x']).1
            ['b'] ['x']).1 ['x'] [(['a'], ['x']), (['b'], ['x'])]).1 ['a'] =
        .error .errNotFound ∧
      thingCacheMock.ID
        (thingCacheMock.RemoveIter
          (thingCacheMock.Save (thingCacheMock.Save newThingCache ['a'] ['x']).1
            ['b'] ['x']).1 ['x'] [(['a'], ['x']), (['b'], ['x'])]).1 ['b'] =
        .ok ['x']) ∨
    (thingCacheMock.ID
        (thingCacheMock.RemoveIter
          (thingCacheMock.Save (thingCacheMock.Save newThingCache ['a'] ['x']).1
            ['b'] ['x']).1 ['x'] [(['a'], ['x']), (['b'], ['x'])]).1 ['b'] =
        .error .errNotFound ∧
      thingCacheMock.ID
        (thingCacheMock.RemoveIter
          (thingCacheMock.Save (thingCacheMock.Save newThingCache ['a'] ['x']).1
            ['b'] ['x']).1 ['x'] [(['a'], ['x']), (['b'], ['x'])]).1 ['a'] =
        .ok ['x']) :=
  remove_by_value_exactly_one ['a'] ['b'] ['x'] (by decide)
    [(['a'], ['x']), (['b'], ['x'])] (by decide)

/-- C2 (counterexample): with the separator inside a group identifier the
membership query is wrong: after `SaveRole "a:b" "c" "r"` the assignment
exists (`ViewRole` returns it) but `GroupMemberships "c"` returns the
empty list instead of the set containing group `"a:b"`. -/
theorem memberships_separator_cex :
    groupCacheMock.ViewRole
      (groupCacheMock.SaveRole newGroupCache ['a', ':', 'b'] ['c'] ['r']).1
      ['a', ':', 'b'] ['c'] = .ok ['r'] ∧
    (groupCacheMock.GroupMemberships
      (groupCacheMock.SaveRole newGroupCache ['a', ':', 'b'] ['c'] ['r']).1
      ['c']).1 = [] :=
  ⟨rfl, rfl⟩

/-- C2 (amended): provided every identifier stored in the roles map is
separator-free (every key decomposes as `rKey` of colon-free components)
and the queried member identifier is separator-free, `GroupMemberships`
returns, without duplicates, exactly the groups whose composite key with
the member is present — unaffected by other members' assignments. -/
theorem memberships_exact_sep_free (s : GroupCacheState) (memberID : Str)
    (hnd : (s.roles.map Prod.fst).Nodup)
    (hw : ∀ p ∈ s.roles, ∃ g m, ':' ∉ g ∧ ':' ∉ m ∧ p.1 = rKey g m)
    (hm : ':' ∉ memberID) :
    (groupCacheMock.GroupMemberships s memberID).1.Nodup ∧
    ∀ g, g ∈ (groupCacheMock.GroupMemberships s memberID).1 ↔
      mapLookup (rKey g memberID) s.roles ≠ none := by
  refine ⟨membershipScan_nodup memberID s.roles hnd hw, ?_⟩
  intro g
  constructor
  · intro hg
    rcases (mem_membershipScan g memberID s.roles).mp hg with ⟨p, hp, h1, h2⟩
    obtain ⟨g1, m1, hg1, hm1, hp1⟩ := hw p hp
    rw [hp1, splitOnColon_rKey g1 m1 hg1 hm1] at h1 h2
    simp at h1 h2
    have hmem : (rKey g memberID, p.2) ∈ s.roles := by
      have hpk : p.1 = rKey g memberID := by rw [hp1, h2, h1]
      rw [← hpk]
      simpa using hp
    exact mapLookup_ne_none_of_mem hmem
  · intro hlk
    rcases mem_keys_of_mapLookup_ne_none hlk with ⟨v, hv⟩
    obtain ⟨g1, m1, hg1, hm1, heq⟩ := hw (rKey g memberID, v) hv
    simp only at heq
    have hgc : ':' ∉ g := no_colon_of_rKey_eq hm hg1 hm1 heq
    refine (mem_membershipScan g memberID s.roles).mpr
      ⟨(rKey g memberID, v), hv, ?_, ?_⟩
    · simp [splitOnColon_rKey g memberID hgc hm]
    · simp [splitOnColon_rKey g memberID hgc hm]

/-- Witness for the amended C2 at a concrete one-assignment state. -/
theorem memberships_exact_sep_free_witness :
    (groupCacheMock.GroupMemberships
      (groupCacheMock.SaveRole newGroupCache ['g'] ['m'] ['r']).1 ['m']).1.Nodup ∧
    ∀ g, g ∈ (groupCacheMock.GroupMemberships
        (groupCacheMock.SaveRole newGroupCache ['g'] ['m'] ['r']).1 ['m']).1 ↔
      mapLookup (rKey g ['m'])
        (groupCacheMock.SaveRole newGroupCache ['g'] ['m'] ['r']).1.roles ≠ none :=
  memberships_exact_sep_free
    (groupCacheMock.SaveRole newGroupCache ['g'] ['m'] ['r']).1 ['m']
    (by decide)
    (by
      intro p hp
      simp [groupCacheMock.SaveRole, newGroupCache, mapInsert] at hp
      subst hp
      exact ⟨['g'], ['m'], by decide, by decide, rfl⟩)
    (by decide)

/-- C3 (counterexample): with separator-containing identifiers,
`RemoveRole "a" "b:c"` deletes the assignment of the distinct pair
`("a:b", "c")`, because both pairs encode to the same composite key. -/
theorem removeRole_separator_cex :
    groupCacheMock.ViewRole
      (groupCacheMock.SaveRole newGroupCache ['a', ':', 'b'] ['c'] ['r']).1
      ['a', ':', 'b'] ['c'] = .ok ['r'] ∧
    groupCacheMock.ViewRole
      (groupCacheMock.RemoveRole
        (groupCacheMock.SaveRole newGroupCache ['a', ':', 'b'] ['c'] ['r']).1
        ['a'] ['b', ':', 'c']).1
      ['a', ':', 'b'] ['c'] = .error .errNotFound :=
  ⟨rfl, rfl⟩

/-- C3 (amended): for separator-free identifiers, `RemoveRole g m`
deletes exactly the pair `(g, m)`: its own lookup then fails with
NotFound, every other separator-free pair resolves unchanged, and when
the pair has no assignment the removal is a no-op on the state. -/
theorem removeRole_exact_frame_sep_free (s s2 : GroupCacheState) (g m g2 m2 : Str)
    (hg : ':' ∉ g) (hm : ':' ∉ m) (hg2 : ':' ∉ g2) (hm2 : ':' ∉ m2)
    (hne : (g2, m2) ≠ (g, m))
    (habs : mapLookup (rKey g m) s2.roles = none) :
    groupCacheMock.ViewRole (groupCacheMock.RemoveRole s g m).1 g m =
      .error .errNotFound ∧
    groupCacheMock.ViewRole (groupCacheMock.RemoveRole s g m).1 g2 m2 =
      groupCacheMock.ViewRole s g2 m2 ∧
    (groupCacheMock.RemoveRole s2 g m).1 = s2 := by
  have hkey : rKey g2 m2 ≠ rKey g m := by
    intro he
    obtain ⟨h1, h2⟩ := rKey_inj hg2 hm2 hg hm he
    exact hne (by rw [h1, h2])
  refine ⟨?_, ?_, ?_⟩
  · simp [groupCacheMock.ViewRole, groupCacheMock.RemoveRole, mapLookup_mapDelete_self]
  · simp [groupCacheMock.ViewRole, groupCacheMock.RemoveRole,
      mapLookup_mapDelete_ne (rKey g m) (rKey g2 m2) s.roles hkey]
  · simp [groupCacheMock.RemoveRole,
      mapDelete_eq_of_lookup_none (rKey g m) s2.roles habs]

/-- Witness for the amended C3 at concrete inputs. -/
theorem removeRole_exact_frame_sep_free_witness :
    groupCacheMock.ViewRole
      (groupCacheMock.RemoveRole newGroupCache ['a'] ['b']).1 ['a'] ['b'] =
      .error .errNotFound ∧
    groupCacheMock.ViewRole
      (groupCacheMock.RemoveRole newGroupCache ['a'] ['b']).1 ['c'] ['d'] =
      groupCacheMock.ViewRole newGroupCache ['c'] ['d'] ∧
    (groupCacheMock.RemoveRole newGroupCache ['a'] ['b']).1 = newGroupCache :=
  removeRole_exact_frame_sep_free newGroupCache newGroupCache
    ['a'] ['b'] ['c'] ['d'] (by decide) (by decide) (by decide) (by decide)
    (by decide) rfl

end MainfluxCache
